import Mathlib

/-!
# Verification of the Focus-Stacking pipeline (`src/focus_stacker.py`)

This file is a shallow embedding of the numeric pipeline of `FocusStacker`
(`src/focus_stacker.py`) in Lean 4, together with theorems settling the
frozen claims about it.

Modelling conventions:

* Images are H×W×3 buffers of rationals (`Img`), grayscale fields are H×W
  buffers (`Gray`).  Buffers are materialized as nested lists, mirroring the
  fact that every NumPy/CuPy intermediate in the source is a materialized
  array; `atD` reads a cell (out-of-range reads give 0, which never happens
  on the in-range indices the theorems quantify over).
* IEEE float arithmetic is idealized as exact rational arithmetic, and the
  literals `1e-6` / `1e-10` as the exact rationals `10⁻⁶` / `10⁻¹⁰`.  All
  claims treated here are structural or range claims that are insensitive to
  this idealization.
* External library primitives whose kernels are transcendental or otherwise
  not exactly representable (cv2 resize / GaussianBlur / bilateralFilter /
  normalize / warpAffine, skimage phase_cross_correlation, cv2 matchTemplate
  and findTransformECC, the JPEG encoder, and pixelwise square roots) are
  oracle parameters collected in an `Env` record; the model fixes exactly
  the shape contracts the libraries guarantee (an operation returns a buffer
  of the requested/derived size).  Primitives with exact integer kernels
  (Sobel ksize 3, Laplacian ksize 1, the FFT-based cyclic convolutions with
  the constant integer kernels, RGB→gray reduction, uint8 conversion) are
  implemented exactly.
* `np.fft.ifft2(np.fft.fft2 x * np.fft.fft2 k, s=shape)` is the cyclic
  convolution of `x` with `k` (with `k` cropped to the first `s` entries per
  axis when `s` is smaller than the kernel, following `np.fft.fft2`); it is
  embedded directly as `cconv`.
* Python exceptions are embedded as `Except`; a `try/except` block is a
  `match` on the `Except` value.
-/

namespace FocusStacking

/-- Tabulate an `h × w` rational matrix as nested lists (row major),
mirroring materialization of a NumPy array. -/
def tab (h w : ℕ) (f : ℕ → ℕ → ℚ) : List (List ℚ) :=
  (List.range h).map fun i => (List.range w).map fun j => f i j

/-- Read cell `(i, j)` of a matrix; out-of-range reads default to 0. -/
def atD (d : List (List ℚ)) (i j : ℕ) : ℚ :=
  (d.getD i []).getD j 0

/-- Tabulate an `h × w × 3` buffer (row major, channels innermost). -/
def tab3 (h w : ℕ) (f : ℕ → ℕ → ℕ → ℚ) : List (List (List ℚ)) :=
  (List.range h).map fun i => (List.range w).map fun j => (List.range 3).map fun c => f i j c

/-- Read cell `(i, j)` channel `c` of a 3-channel buffer. -/
def at3D (d : List (List (List ℚ))) (i j c : ℕ) : ℚ :=
  ((d.getD i []).getD j []).getD c 0

/-- A grayscale field: H×W float buffer (`GrayscaleField` of the data model). -/
structure Gray where
  h : ℕ
  w : ℕ
  d : List (List ℚ)
deriving DecidableEq

/-- An image: H×W×3 float buffer (`Image` of the data model). -/
structure Img where
  h : ℕ
  w : ℕ
  d : List (List (List ℚ))
deriving DecidableEq

instance : Inhabited Img := ⟨⟨0, 0, []⟩⟩

instance {ε α : Type} [DecidableEq ε] [DecidableEq α] : DecidableEq (Except ε α)
  | .ok a, .ok b =>
    if h : a = b then .isTrue (by rw [h]) else .isFalse (by intro he; cases he; exact h rfl)
  | .error a, .error b =>
    if h : a = b then .isTrue (by rw [h]) else .isFalse (by intro he; cases he; exact h rfl)
  | .ok _, .error _ => .isFalse (by intro he; cases he)
  | .error _, .ok _ => .isFalse (by intro he; cases he)

/-- Channel read on an image. -/
def Img.px (img : Img) (i j c : ℕ) : ℚ := at3D img.d i j c

/-- Cell read on a grayscale field. -/
def Gray.px (g : Gray) (i j : ℕ) : ℚ := atD g.d i j

/-- `np.clip x lo hi = min (max x lo) hi`. -/
def clipQ (x lo hi : ℚ) : ℚ := min (max x lo) hi

/-- The exact rational standing for the float literal `1e-6`. -/
def eps6 : ℚ := 1 / 1000000

/-- The exact rational standing for the float literal `1e-10`. -/
def eps10 : ℚ := 1 / 10000000000

/-- Maximum of `f 0, …, f n`. -/
def rowMax (f : ℕ → ℚ) : ℕ → ℚ
  | 0 => f 0
  | n + 1 => max (rowMax f n) (f (n + 1))

/-- Minimum of `f 0, …, f n`. -/
def rowMin (f : ℕ → ℚ) : ℕ → ℚ
  | 0 => f 0
  | n + 1 => min (rowMin f n) (f (n + 1))

/-- `cp.max` over an `h × w` matrix given by a cell function (for `h, w ≥ 1`). -/
def matMax (h w : ℕ) (g : ℕ → ℕ → ℚ) : ℚ :=
  rowMax (fun i => rowMax (g i) (w - 1)) (h - 1)

/-- `cp.min` over an `h × w` matrix given by a cell function (for `h, w ≥ 1`). -/
def matMin (h w : ℕ) (g : ℕ → ℕ → ℚ) : ℚ :=
  rowMin (fun i => rowMin (g i) (w - 1)) (h - 1)

/-- `cp.max` over all three channels of an `h × w × 3` buffer. -/
def matMax3 (h w : ℕ) (g : ℕ → ℕ → ℕ → ℚ) : ℚ :=
  matMax h w (fun i j => rowMax (g i j) 2)

/-- `cp.min` over all three channels of an `h × w × 3` buffer. -/
def matMin3 (h w : ℕ) (g : ℕ → ℕ → ℕ → ℚ) : ℚ :=
  matMin h w (fun i j => rowMin (g i j) 2)

/-- `cp.mean` over an `h × w` matrix. -/
def matMean (h w : ℕ) (g : ℕ → ℕ → ℚ) : ℚ :=
  (∑ i ∈ Finset.range h, ∑ j ∈ Finset.range w, g i j) / ((h : ℚ) * (w : ℚ))

/-- Population variance, so that `cp.std = sqrt matVar`. -/
def matVar (h w : ℕ) (g : ℕ → ℕ → ℚ) : ℚ :=
  matMean h w (fun i j => g i j * g i j) - (matMean h w g) ^ 2

/-- `cp.mean` over all three channels of an `h × w × 3` buffer. -/
def matMean3 (h w : ℕ) (g : ℕ → ℕ → ℕ → ℚ) : ℚ :=
  (∑ i ∈ Finset.range h, ∑ j ∈ Finset.range w, (g i j 0 + g i j 1 + g i j 2)) /
    ((h : ℚ) * (w : ℚ) * 3)

/-- OpenCV `BORDER_REFLECT_101` index interpolation (single reflection, which
covers the ±1 offsets of the 3×3 kernels used by the source; OpenCV maps every
index of a length-1 axis to 0). -/
def refl101 (n : ℕ) (z : ℤ) : ℕ :=
  if n ≤ 1 then 0
  else if z < 0 then (-z).toNat
  else if z < (n : ℤ) then z.toNat
  else (2 * ((n : ℤ) - 1) - z).toNat

/-- Sobel x-derivative kernel `[[-1,0,1],[-2,0,2],[-1,0,1]]`
(cv2.Sobel, dx=1, ksize=3; correlation form). -/
def sobelXK : ℕ → ℕ → ℚ
  | 0, 0 => -1 | 0, 2 => 1
  | 1, 0 => -2 | 1, 2 => 2
  | 2, 0 => -1 | 2, 2 => 1
  | _, _ => 0

/-- Sobel y-derivative kernel `[[-1,-2,-1],[0,0,0],[1,2,1]]`
(cv2.Sobel, dy=1, ksize=3; correlation form). -/
def sobelYK : ℕ → ℕ → ℚ
  | 0, 0 => -1 | 0, 1 => -2 | 0, 2 => -1
  | 2, 0 => 1 | 2, 1 => 2 | 2, 2 => 1
  | _, _ => 0

/-- Laplacian kernel `[[0,1,0],[1,-4,1],[0,1,0]]`
(cv2.Laplacian with default aperture 1). -/
def lapK : ℕ → ℕ → ℚ
  | 0, 1 => 1
  | 1, 0 => 1 | 1, 1 => -4 | 1, 2 => 1
  | 2, 1 => 1
  | _, _ => 0

/-- `sharp_kernel = [[-4,-4,-4],[-4,33,-4],[-4,-4,-4]]` of the source (line 22). -/
def sharpK : ℕ → ℕ → ℚ
  | 1, 1 => 33
  | a, b => if a ≤ 2 ∧ b ≤ 2 then -4 else 0

/-- `highfreq_kernel = [[-2,-3,-2],[-3,25,-3],[-2,-3,-2]]` of the source (line 27). -/
def highfreqK : ℕ → ℕ → ℚ
  | 0, 0 => -2 | 0, 1 => -3 | 0, 2 => -2
  | 1, 0 => -3 | 1, 1 => 25 | 1, 2 => -3
  | 2, 0 => -2 | 2, 1 => -3 | 2, 2 => -2
  | _, _ => 0

/-- `detail_kernel = [[-1,-2,-1],[-2,13,-2],[-1,-2,-1]]` of the source (line 39). -/
def detailK : ℕ → ℕ → ℚ
  | 0, 0 => -1 | 0, 1 => -2 | 0, 2 => -1
  | 1, 0 => -2 | 1, 1 => 13 | 1, 2 => -2
  | 2, 0 => -1 | 2, 1 => -2 | 2, 2 => -1
  | _, _ => 0

/-- 3×3 correlation with `BORDER_REFLECT_101` borders — the exact semantics of
`cv2.Sobel` (ksize 3) and `cv2.Laplacian` (ksize 1) on a float array. -/
def corr3 (k : ℕ → ℕ → ℚ) (h w : ℕ) (d : List (List ℚ)) (i j : ℕ) : ℚ :=
  ∑ a ∈ Finset.range 3, ∑ b ∈ Finset.range 3,
    k a b * atD d (refl101 h ((i : ℤ) + (a : ℤ) - 1)) (refl101 w ((j : ℤ) + (b : ℤ) - 1))

/-- Cyclic convolution of an `h × w` matrix with a 3×3 kernel: the exact value
of `real(ifft2(fft2 x * fft2 (k, s=(h,w))))`.  Following `np.fft.fft2`, the
kernel is cropped to its first `min 3 h` rows and `min 3 w` columns when an
axis is shorter than 3. -/
def cconv (k : ℕ → ℕ → ℚ) (h w : ℕ) (d : List (List ℚ)) (i j : ℕ) : ℚ :=
  ∑ a ∈ Finset.range (min 3 h), ∑ b ∈ Finset.range (min 3 w),
    k a b * atD d ((i + (h - a)) % h) ((j + (w - b)) % w)

/-- `(x * 255).astype(np.uint8)` for a float channel value in [0,1]:
truncation toward zero. -/
def u8 (x : ℚ) : ℚ := ((⌊255 * x⌋ : ℤ) : ℚ)

/-- `cv2.COLOR_RGB2GRAY` on the uint8 image obtained from a float image:
`Y = round(0.299 R + 0.587 G + 0.114 B)` on the truncated 8-bit values. -/
def toGray8 (img : Img) : Gray :=
  ⟨img.h, img.w, tab img.h img.w fun i j =>
    ((⌊(299 * u8 (img.px i j 0) + 587 * u8 (img.px i j 1) + 114 * u8 (img.px i j 2)) / 1000
        + 1 / 2⌋ : ℤ) : ℚ)⟩

/-- `int x` for a nonnegative Python float: truncation. -/
def natFloor (q : ℚ) : ℕ := (⌊q⌋ : ℤ).toNat

/-- `cvRound` idealized as round-half-up (the concrete sizes used in the
witnesses and counterexamples are never half-integers, where alone
round-half-up and OpenCV round-half-even differ). -/
def natRound (q : ℚ) : ℕ := (⌊q + 1 / 2⌋ : ℤ).toNat

/-- A 2×3 affine warp matrix. -/
structure Mat23 where
  a00 : ℚ
  a01 : ℚ
  a02 : ℚ
  a10 : ℚ
  a11 : ℚ
  a12 : ℚ
deriving DecidableEq

/-- The translation matrix `np.float32([[1, 0, -shift[1]], [0, 1, -shift[0]]])`
built from a `(Δy, Δx)` shift estimate. -/
def shiftMat (s0 s1 : ℚ) : Mat23 := ⟨1, 0, -s1, 0, 1, -s0⟩

/-- The `FocusStacker` configuration state set up by `__init__`. -/
structure Stacker where
  radius : ℕ
  smoothing : ℕ
  scale_factor : ℕ
  window_size : ℕ
deriving DecidableEq

/-- Oracle bundle for the external library collaborators (cv2 / skimage /
cupy transcendentals / PIL codec).  Each oracle returns cell functions; the
model re-tabulates them at the shape the library contract guarantees. -/
structure Env where
  /-- `_load_image`: decode a path into an H×W×3 float [0,1] image, or raise. -/
  load : String → Except String Img
  /-- `cv2.resize` with `INTER_LINEAR` : srcH srcW data dstH dstW i j. -/
  resizeLin : ℕ → ℕ → List (List ℚ) → ℕ → ℕ → ℕ → ℕ → ℚ
  /-- `cv2.resize` with `INTER_LANCZOS4` on a color image. -/
  resizeLanC : ℕ → ℕ → List (List (List ℚ)) → ℕ → ℕ → ℕ → ℕ → ℕ → ℚ
  /-- `cv2.GaussianBlur` : ksize sigma h w data i j (shape preserved). -/
  gaussBlur : ℕ → ℚ → ℕ → ℕ → List (List ℚ) → ℕ → ℕ → ℚ
  /-- `cv2.bilateralFilter` : d sigmaColor sigmaSpace h w data i j. -/
  bilateral : ℕ → ℚ → ℚ → ℕ → ℕ → List (List ℚ) → ℕ → ℕ → ℚ
  /-- `cv2.normalize(·, None, 0, 255, cv2.NORM_MINMAX)` on a uint8 gray image. -/
  normalizeU8 : ℕ → ℕ → List (List ℚ) → ℕ → ℕ → ℚ
  /-- Pixelwise / scalar `cp.sqrt` (also used for `cp.std` via `matVar`). -/
  sqrtQ : ℚ → ℚ
  /-- `skimage.registration.phase_cross_correlation` (raises on shape mismatch). -/
  phaseCorr : Gray → Gray → Except String (ℚ × ℚ)
  /-- `cv2.warpAffine` on a grayscale field (dsize = source size at every call site). -/
  warpG : Mat23 → ℕ → ℕ → List (List ℚ) → ℕ → ℕ → ℚ
  /-- `cv2.warpAffine` on a color image (dsize = source size at every call site). -/
  warpC : Mat23 → ℕ → ℕ → List (List (List ℚ)) → ℕ → ℕ → ℕ → ℚ
  /-- `-cv2.matchTemplate(..., cv2.TM_CCOEFF_NORMED)[0][0]` before negation. -/
  matchT : Gray → Gray → Except String ℚ
  /-- `cv2.findTransformECC` (MOTION_EUCLIDEAN, ≤1000 iters, 1e-7): refined warp or raise. -/
  ecc : Gray → Gray → Except String Mat23
  /-- `PIL Image.save` with a quality setting: path, 8-bit H×W×3 data, quality. -/
  encode : String → List (List (List ℚ)) → ℕ → Except String Unit

/-! ## AlignmentEngine (`_align_images`, lines 78–185) -/

/-- GPU min-max normalization `(x - min) / (max - min)` of lines 117–118
(note: no epsilon guard in the source at these lines). -/
def normalize01 (g : Gray) : Gray :=
  let mn := matMin g.h g.w (atD g.d)
  let mx := matMax g.h g.w (atD g.d)
  ⟨g.h, g.w, tab g.h g.w fun i j => (atD g.d i j - mn) / (mx - mn)⟩

/-- One iteration of the multi-scale loop (lines 102–146): estimate a shift at
one scale, score it by warped normalized cross-correlation, and keep the best
`(Δy, Δx, error)` triple (`error < best_error` with `best_error` starting at
`inf` is modelled by the `Option` accumulator). -/
def scaleStep (env : Env) (refGray imgGray : Gray) (img : Img)
    (best : Option (ℚ × ℚ × ℚ)) (scale : ℚ) : Except String (Option (ℚ × ℚ × ℚ)) := do
  let sref : Gray :=
    if scale = 1 then refGray
    else
      let width := natFloor (scale * (img.w : ℚ))
      let height := natFloor (scale * (img.h : ℚ))
      ⟨height, width, tab height width (env.resizeLin refGray.h refGray.w refGray.d height width)⟩
  let simg : Gray :=
    if scale = 1 then imgGray
    else
      let width := natFloor (scale * (img.w : ℚ))
      let height := natFloor (scale * (img.h : ℚ))
      ⟨height, width, tab height width (env.resizeLin imgGray.h imgGray.w imgGray.d height width)⟩
  let s ← env.phaseCorr (normalize01 sref) (normalize01 simg)
  let s0 := if scale = 1 then s.1 else s.1 / scale
  let s1 := if scale = 1 then s.2 else s.2 / scale
  let shifted : Gray :=
    ⟨img.h, img.w, tab img.h img.w (env.warpG (shiftMat s0 s1) img.h img.w imgGray.d)⟩
  let tm ← env.matchT refGray shifted
  let e := -tm
  pure (match best with
    | none => some (s0, s1, e)
    | some b => if e < b.2.2 then some (s0, s1, e) else some b)

/-- The body of the per-image `try` block of `_align_images` (lines 93–178):
multi-scale phase correlation, translation warp, and conditional ECC
refinement.  Any raising step short-circuits the whole attempt. -/
def tryAlignOne (env : Env) (refGray : Gray) (img : Img) : Except String Img := do
  let imgGray8 := toGray8 img
  let imgGray : Gray :=
    ⟨img.h, img.w, tab img.h img.w (env.normalizeU8 img.h img.w imgGray8.d)⟩
  let scales : List ℚ := [1, 4/5, 3/5, 2/5, 1/5]
  let best ← scales.foldlM (scaleStep env refGray imgGray img) none
  match best with
  | none => .error "no scales"
  | some b =>
    let s0 := b.1
    let s1 := b.2.1
    let e := b.2.2
    let warped : Img :=
      ⟨img.h, img.w, tab3 img.h img.w (env.warpC (shiftMat s0 s1) img.h img.w img.d)⟩
    if 1/10 < e then
      match env.ecc refGray (toGray8 warped) with
      | .ok m => pure ⟨img.h, img.w, tab3 img.h img.w (env.warpC m img.h img.w warped.d)⟩
      | .error _ => pure warped
    else
      pure warped

/-- A non-reference image is either aligned by `tryAlignOne`, or — when the
attempt raises (lines 180–183) — the unmodified original is substituted. -/
def align_one (env : Env) (refGray : Gray) (img : Img) : Img :=
  match tryAlignOne env refGray img with
  | .ok a => a
  | .error _ => img

/-- `_align_images` (lines 78–185): element 0 is the unmodified reference;
every other image is aligned independently with per-image fallback.  (The
normalized `gpu_ref` of lines 84–88 is computed but never used by the source
and is omitted.)  The source indexes `images[0]` and so raises on an empty
list; the claims only concern stacks with `N ≥ 2`. -/
def align_images (env : Env) (images : List Img) : List Img :=
  match images with
  | [] => []
  | ref :: rest => ref :: rest.map (align_one env (toGray8 ref))

/-! ## FocusMeasureEngine (`_focus_measure`, lines 187–263) -/

/-- Gradient magnitude `sqrt(dx² + dy²)` of lines 200–202 (exact Sobel, oracle
square root). -/
def fm_gradmag (env : Env) (h w : ℕ) (gd : List (List ℚ)) : List (List ℚ) :=
  let dx := tab h w (corr3 sobelXK h w gd)
  let dy := tab h w (corr3 sobelYK h w gd)
  tab h w fun i j => env.sqrtQ (atD dx i j * atD dx i j + atD dy i j * atD dy i j)

/-- The per-scale measure of lines 213–238:
`high_freq × edge_strength × local_contrast × gradient_magnitude`, optionally
computed at a downsampled size and resized back.  `cv2.resize(·, None, fx=s,
fy=s)` produces a `round(s·h) × round(s·w)` buffer. -/
def fm_scale_term (env : Env) (h w : ℕ) (gd gm lap : List (List ℚ)) (scale : ℚ) :
    List (List ℚ) :=
  if scale = 1 then
    let hf := tab h w fun i j => |atD gd i j - env.gaussBlur 5 0 h w gd i j|
    let es := tab h w fun i j => |atD lap i j|
    let lm := tab h w (env.gaussBlur 7 (3/2) h w gd)
    let lc := tab h w fun i j => |atD gd i j - atD lm i j|
    tab h w fun i j => atD hf i j * atD es i j * atD lc i j * atD gm i j
  else
    let nh := natRound (scale * (h : ℚ))
    let nw := natRound (scale * (w : ℚ))
    let sg := tab nh nw (env.resizeLin h w gd nh nw)
    let sgr := tab nh nw (env.resizeLin h w gm nh nw)
    let sl := tab nh nw (env.resizeLin h w lap nh nw)
    let hf := tab nh nw fun i j => |atD sg i j - env.gaussBlur 5 0 nh nw sg i j|
    let es := tab nh nw fun i j => |atD sl i j|
    let lm := tab nh nw (env.gaussBlur 7 (3/2) nh nw sg)
    let lc := tab nh nw fun i j => |atD sg i j - atD lm i j|
    let sm := tab nh nw fun i j => atD hf i j * atD es i j * atD lc i j * atD sgr i j
    tab h w (env.resizeLin nh nw sm h w)

/-- The accumulated `focus_map` over scales `{1, 0.5, 0.25}` with weights
`{0.6, 0.3, 0.1}` (lines 207–245). -/
def fm_raw (env : Env) (h w : ℕ) (gd gm lap : List (List ℚ)) : List (List ℚ) :=
  [((1 : ℚ), (3/5 : ℚ)), (1/2, 3/10), (1/4, 1/10)].foldl
    (fun acc sw =>
      let t := fm_scale_term env h w gd gm lap sw.1
      tab h w fun i j => atD acc i j + sw.2 * atD t i j)
    (tab h w fun _ _ => 0)

/-- The epsilon-guarded min-max normalization of line 248. -/
def fm_norm1 (h w : ℕ) (d : List (List ℚ)) : List (List ℚ) :=
  let mn := matMin h w (atD d)
  let mx := matMax h w (atD d)
  tab h w fun i j => (atD d i j - mn) / (mx - mn + eps6)

/-- The edge-aware boost of lines 251–252: multiply by
`1 + 0.2 · clip(|laplacian| / (max |laplacian| + 1e-6), 0, 1)`. -/
def fm_boost (h w : ℕ) (lap d : List (List ℚ)) : List (List ℚ) :=
  let lmx := matMax h w fun i j => |atD lap i j|
  tab h w fun i j =>
    atD d i j * (1 + (1/5) * clipQ (|atD lap i j| / (lmx + eps6)) 0 1)

/-- The final normalize-and-clip of line 255. -/
def fm_final (h w : ℕ) (d : List (List ℚ)) : List (List ℚ) :=
  let mn := matMin h w (atD d)
  let mx := matMax h w (atD d)
  tab h w fun i j => clipQ ((atD d i j - mn) / (mx - mn + eps6)) 0 1

/-- `_focus_measure` (lines 187–263) on a 3-channel aligned image (the inputs
handed to it by `process_stack` are always 3-channel, so the 2-channel branch
of line 193 is not exercised). -/
def focus_measure (env : Env) (img : Img) : Gray :=
  let g := toGray8 img
  let gm := fm_gradmag env img.h img.w g.d
  let lap := tab img.h img.w (corr3 lapK img.h img.w g.d)
  ⟨img.h, img.w,
    fm_final img.h img.w
      (fm_boost img.h img.w lap
        (fm_norm1 img.h img.w (fm_raw env img.h img.w g.d gm lap)))⟩

/-! ## Compositor (`_blend_images`, lines 265–483) -/

/-- The depth-aware mask of lines 302–311: normalized bilateral-smoothed
gradient magnitude of the upsampled focus map. -/
def bw_dmask (env : Env) (nh nw : ℕ) (fmUp : List (List ℚ)) : List (List ℚ) :=
  let dx := tab nh nw (corr3 sobelXK nh nw fmUp)
  let dy := tab nh nw (corr3 sobelYK nh nw fmUp)
  let dg := tab nh nw fun i j => env.sqrtQ (atD dx i j * atD dx i j + atD dy i j * atD dy i j)
  let bf := tab nh nw (env.bilateral 9 75 75 nh nw dg)
  let bmn := matMin nh nw (atD bf)
  let bmx := matMax nh nw (atD bf)
  tab nh nw fun i j => (atD bf i j - bmn) / (bmx - bmn + eps6)

/-- One window of the multi-scale focus-map refinement of lines 318–342. -/
def bw_step (env : Env) (nh nw : ℕ) (fmUp dmask : List (List ℚ))
    (acc : List (List ℚ)) (sw : ℕ × ℚ) : List (List ℚ) :=
  let s := sw.1
  let fmBlur := tab nh nw (env.gaussBlur (2 * s + 1) ((s : ℚ) / 3) nh nw fmUp)
  let es := tab nh nw fun i j => |atD fmUp i j - atD fmBlur i j| * (1 + atD dmask i j)
  let esMean := matMean nh nw (atD es)
  let esStd := env.sqrtQ (matVar nh nw (atD es))
  tab nh nw fun i j =>
    atD acc i j +
      (if esMean + esStd * (2 + atD dmask i j) < atD es i j then
        atD fmBlur i j * (sw.2 * (1 + (1/2) * atD dmask i j))
      else
        atD fmUp i j * (sw.2 * (1 + (1/2) * atD dmask i j)))

/-- The accumulated refined focus map over the windows
`{200, 150, 100, 50}` with weights `{0.35, 0.3, 0.2, 0.15}` (lines 313–342). -/
def bw_fmNew (env : Env) (nh nw : ℕ) (fmUp dmask : List (List ℚ)) : List (List ℚ) :=
  [((200 : ℕ), (7/20 : ℚ)), (150, 3/10), (100, 1/5), (50, 3/20)].foldl
    (bw_step env nh nw fmUp dmask) (tab nh nw fun _ _ => 0)

/-- The per-image blend weight of lines 292–350: depth-aware multi-window
focus-map refinement, two bilateral passes, epsilon-guarded normalization. -/
def blend_weight (env : Env) (nh nw : ℕ) (fmUp : List (List ℚ)) : List (List ℚ) :=
  let dmask := bw_dmask env nh nw fmUp
  let fmNew := bw_fmNew env nh nw fmUp dmask
  let sm1 := tab nh nw (env.bilateral 11 100 100 nh nw fmNew)
  let sm2 := tab nh nw (env.bilateral 7 50 50 nh nw sm1)
  let smn := matMin nh nw (atD sm2)
  let smx := matMax nh nw (atD sm2)
  tab nh nw fun i j => (atD sm2 i j - smn) / (smx - smn + eps6)

/-- The weighted accumulation of lines 286–358 over `zip(aligned, focus_maps)`:
returns `(result, weights_sum)`. -/
def blend_accum (env : Env) (nh nw : ℕ) (pairs : List (Img × Gray)) :
    List (List (List ℚ)) × List (List ℚ) :=
  pairs.foldl
    (fun acc p =>
      let imgUp := tab3 nh nw (env.resizeLanC p.1.h p.1.w p.1.d nh nw)
      let fmUp := tab nh nw (env.resizeLin p.2.h p.2.w p.2.d nh nw)
      let wt := blend_weight env nh nw fmUp
      (tab3 nh nw fun i j c => at3D acc.1 i j c + at3D imgUp i j c * atD wt i j,
       tab nh nw fun i j => atD acc.2 i j + atD wt i j))
    (tab3 nh nw fun _ _ _ => 0, tab nh nw fun _ _ => 0)

/-- Dynamic-range restoration (lines 360–393): normalize by the weight sum,
rescale the global range to that of the reference, per channel clip to the reference
channel range then stretch contrast ×1.1 about the channel mean, and clip to
`[0, max_ref]`. -/
def blend_restore (nh nw : ℕ) (ref : Img) (res : List (List (List ℚ)))
    (ws : List (List ℚ)) : List (List (List ℚ)) :=
  let res1 := tab3 nh nw fun i j c => at3D res i j c / (atD ws i j + eps10)
  let refMin := matMin3 ref.h ref.w ref.px
  let refMax := matMax3 ref.h ref.w ref.px
  let refRange := refMax - refMin
  let rmn := matMin3 nh nw (at3D res1)
  let rmx := matMax3 nh nw (at3D res1)
  let res2 := tab3 nh nw fun i j c =>
    (at3D res1 i j c - rmn) * (refRange / (rmx - rmn + eps6)) + refMin
  let chMn := (List.range 3).map fun c => matMin ref.h ref.w fun a b => ref.px a b c
  let chMx := (List.range 3).map fun c => matMax ref.h ref.w fun a b => ref.px a b c
  let chMe := (List.range 3).map fun c => matMean ref.h ref.w fun a b => ref.px a b c
  let res3 := tab3 nh nw fun i j c =>
    (clipQ (at3D res2 i j c) (chMn.getD c 0) (chMx.getD c 0) - chMe.getD c 0) * (11/10)
      + chMe.getD c 0
  tab3 nh nw fun i j c => clipQ (at3D res3 i j c) 0 refMax

/-- The focus-aware sharpening mask of lines 403–420:
`clip(mean over maps of (1 − upsampled map), 0.3, 1.0)`. -/
def blend_fmask (env : Env) (nh nw : ℕ) (rfms : List Gray) (n : ℕ) : List (List ℚ) :=
  let s :=
    rfms.foldl
      (fun acc fm =>
        let fmUp := tab nh nw (env.resizeLin fm.h fm.w fm.d nh nw)
        tab nh nw fun i j => atD acc i j + (1 - atD fmUp i j))
      (tab nh nw fun _ _ => 0)
  tab nh nw fun i j => clipQ (atD s i j / (n : ℚ)) (3/10) 1

/-- The local-variance detail mask of lines 437–441 (as a cell function; its
min-max statistics are taken over the materialized variance buffer). -/
def detail_mask (env : Env) (nh nw : ℕ) (base : List (List ℚ)) : ℕ → ℕ → ℚ :=
  let b2 := tab nh nw fun i j => atD base i j * atD base i j
  let lv := tab nh nw fun i j =>
    env.gaussBlur 11 0 nh nw b2 i j - (env.gaussBlur 11 0 nh nw base i j) ^ 2
  let mn := matMin nh nw (atD lv)
  let mx := matMax nh nw (atD lv)
  fun i j => clipQ ((atD lv i j - mn) / (mx - mn + eps6)) (2/5) 1

/-- The adaptive sharpening strength of line 449:
`clip(focus_mask · (1.4 + 0.4 · detail_mask), 0.8, 0.99)`. -/
def sharpen_strength (env : Env) (nh nw : ℕ) (fmask base : List (List ℚ)) : ℕ → ℕ → ℚ :=
  fun i j => clipQ (atD fmask i j * (7/5 + (2/5) * detail_mask env nh nw base i j)) (4/5) (99/100)

/-- The edge-magnitude contrast mask of lines 453–454:
`clip(|laplacian| / (max |laplacian| + 1e-6), 0.2, 0.6)`. -/
def contrast_mask (nh nw : ℕ) (base : List (List ℚ)) : ℕ → ℕ → ℚ :=
  let lc := tab nh nw (corr3 lapK nh nw base)
  let mx := matMax nh nw fun i j => |atD lc i j|
  fun i j => clipQ (|atD lc i j| / (mx + eps6)) (1/5) (3/5)

/-- One channel of the focus-aware sharpening of lines 424–460, written with
the same intermediates as the source. -/
def sharpen_channel (env : Env) (nh nw : ℕ) (fmask base : List (List ℚ)) :
    List (List ℚ) :=
  let sharp := tab nh nw (cconv sharpK nh nw base)
  let highFreq := tab nh nw (cconv highfreqK nh nw base)
  let b2 := tab nh nw fun i j => atD base i j * atD base i j
  let localVar := tab nh nw fun i j =>
    env.gaussBlur 11 0 nh nw b2 i j - (env.gaussBlur 11 0 nh nw base i j) ^ 2
  let lvMn := matMin nh nw (atD localVar)
  let lvMx := matMax nh nw (atD localVar)
  let dMask := tab nh nw fun i j =>
    clipQ ((atD localVar i j - lvMn) / (lvMx - lvMn + eps6)) (2/5) 1
  let fineDetail := tab nh nw (cconv detailK nh nw base)
  let sStrength := tab nh nw fun i j =>
    clipQ (atD fmask i j * (7/5 + (2/5) * atD dMask i j)) (4/5) (99/100)
  let localContrast := tab nh nw (corr3 lapK nh nw base)
  let lcMx := matMax nh nw fun i j => |atD localContrast i j|
  let cMask := tab nh nw fun i j => clipQ (|atD localContrast i j| / (lcMx + eps6)) (1/5) (3/5)
  tab nh nw fun i j =>
    atD base i j
      + atD sharp i j * atD sStrength i j * (1/2) * atD cMask i j
      + atD highFreq i j * (1/5) * atD cMask i j
      + atD fineDetail i j * (1/10) * atD cMask i j

/-- The formula the specification states for the sharpening stage (claim C4):
`base + sharpen_response×0.5×contrast_mask + high_freq_response×0.2×contrast_mask
+ fine_detail_response×0.1×contrast_mask` — with no adaptive strength factor on
the sharpen term.  Kept as a second definition only to compare against the
source-derived `sharpen_channel`. -/
def sharpen_channel_spec (nh nw : ℕ) (base : List (List ℚ)) : List (List ℚ) :=
  tab nh nw fun i j =>
    atD base i j
      + cconv sharpK nh nw base i j * (1/2) * contrast_mask nh nw base i j
      + cconv highfreqK nh nw base i j * (1/5) * contrast_mask nh nw base i j
      + cconv detailK nh nw base i j * (1/10) * contrast_mask nh nw base i j

/-- The final clip to `[0, 1]` of line 477. -/
def blend_final (h w : ℕ) (d : List (List (List ℚ))) : List (List (List ℚ)) :=
  tab3 h w fun i j c => clipQ (at3D d i j c) 0 1

/-- The body of `_blend_images` (lines 265–483). -/
def blend_core (env : Env) (sf : ℕ) (aligned : List Img) (fms : List Gray) :
    List (List (List ℚ)) :=
  let ref := aligned.headI
  let h := ref.h
  let w := ref.w
  let nh := if 1 < sf then h * sf else h
  let nw := if 1 < sf then w * sf else w
  let rfms : List Gray := fms.map fun fm =>
    if fm.h = h ∧ fm.w = w then fm
    else ⟨h, w, tab h w (env.resizeLin fm.h fm.w fm.d h w)⟩
  let acc := blend_accum env nh nw (aligned.zip rfms)
  let res4 := blend_restore nh nw ref acc.1 acc.2
  let fmask := blend_fmask env nh nw rfms fms.length
  let sh0 := sharpen_channel env nh nw fmask (tab nh nw fun i j => at3D res4 i j 0)
  let sh1 := sharpen_channel env nh nw fmask (tab nh nw fun i j => at3D res4 i j 1)
  let sh2 := sharpen_channel env nh nw fmask (tab nh nw fun i j => at3D res4 i j 2)
  let res5 := tab3 nh nw fun i j c =>
    if c = 0 then atD sh0 i j else if c = 1 then atD sh1 i j else atD sh2 i j
  let resF :=
    if 1 < sf then tab3 h w (env.resizeLanC nh nw res5 h w) else res5
  blend_final h w resF

/-- `_blend_images` (lines 265–483): the output buffer has the spatial size of
`aligned_images[0]` in both the `scale_factor > 1` (Lanczos downsample back to
`(w, h)`) and the `scale_factor = 1` branch. -/
def blend_images (env : Env) (sf : ℕ) (aligned : List Img) (fms : List Gray) : Img :=
  ⟨aligned.headI.h, aligned.headI.w, blend_core env sf aligned fms⟩

/-! ## Orchestrator (`__init__`, `process_stack`, `save_image`) -/

/-- Failures surfaced by `process_stack` (the messages of the raised Python
exceptions are irrelevant to the claims and are collapsed per kind). -/
inductive PErr where
  | inputError : PErr
  | loadError : String → PErr
  | colorError : String → PErr
deriving DecidableEq

/-- `FocusStacker.__init__` (lines 44–65): bound validation, then the stored
configuration (`window_size = 2·radius + 1`). -/
def mk_stacker (radius smoothing scale_factor : ℕ) : Except String Stacker :=
  if ¬ (1 ≤ radius ∧ radius ≤ 20) then .error "Radius must be between 1 and 20"
  else if ¬ (1 ≤ smoothing ∧ smoothing ≤ 10) then .error "Smoothing must be between 1 and 10"
  else if ¬ (1 ≤ scale_factor ∧ scale_factor ≤ 4) then .error "Scale factor must be between 1 and 4"
  else .ok ⟨radius, smoothing, scale_factor, 2 * radius + 1⟩

/-- The sequential image-loading loop of lines 544–553 (a load failure is
re-raised and aborts the stack). -/
def load_all (env : Env) : List String → Except String (List Img)
  | [] => .ok []
  | p :: ps => do
    let i ← env.load p
    let rest ← load_all env ps
    .ok (i :: rest)

/-- `process_stack` (lines 537–593): length check, load, align, per-image
focus measure, blend, then the color-space branch (`self.color_profiles` holds
only the key `sRGB`, so `_convert_color_space` raises `KeyError` for every
other requested space, which line 590 re-raises). -/
def process_stack (env : Env) (st : Stacker) (image_paths : List String)
    (color_space : String) : Except PErr Img :=
  if image_paths.length < 2 then .error .inputError
  else
    match load_all env image_paths with
    | .error m => .error (.loadError m)
    | .ok images =>
      let aligned := align_images env images
      let fms := aligned.map (focus_measure env)
      let result := blend_images env st.scale_factor aligned fms
      if color_space = "sRGB" then .ok result else .error (.colorError color_space)

/-- Python `str.upper()` restricted to ASCII (the only case exercised by the
format strings of this program). -/
def pyUpper (s : String) : String :=
  ⟨s.data.map fun c => if 97 ≤ c.toNat ∧ c.toNat ≤ 122 then Char.ofNat (c.toNat - 32) else c⟩

/-- The 8-bit quantization of line 619:
`np.clip(img * 255.0 + 0.5, 0, 255).astype(np.uint8)`. -/
def quantize8 (x : ℚ) : ℚ := ((⌊clipQ (x * 255 + 1/2) 0 255⌋ : ℤ) : ℚ)

/-- `save_image` (lines 606–634): quantize to 8 bits, then encode iff
`format.upper()` being JPEG (at quality 95), else raise; the `except` clause
re-raises, so encoder failures propagate unchanged. -/
def save_image (env : Env) (img : Img) (path format color_space : String) :
    Except String Unit :=
  let img8 := tab3 img.h img.w fun i j c => quantize8 (img.px i j c)
  if pyUpper format = "JPEG" then env.encode path img8 95
  else .error ("Unsupported format: " ++ format)

/-- `Stack` well-formedness: all images share identical H×W. -/
def sameSize (l : List Img) : Prop :=
  ∀ a ∈ l, ∀ b ∈ l, a.h = b.h ∧ a.w = b.w

instance (l : List Img) : Decidable (sameSize l) := by
  unfold sameSize; infer_instance

/-- Whether an `Except` computation succeeded (did not raise). -/
def exOk : Except String Img → Bool
  | .ok _ => true
  | .error _ => false

/-- Whether `process_stack` succeeded (raised no exception). -/
def psOk : Except PErr Img → Bool
  | .ok _ => true
  | .error _ => false

/-! ## Concrete instances used by witnesses and counterexamples -/

/-- A uniform 4×4 mid-gray image. -/
def imgA : Img := ⟨4, 4, tab3 4 4 fun _ _ _ => 1/2⟩

/-- A uniform 8×8 mid-gray image (deliberately a different size than `imgA`). -/
def imgB : Img := ⟨8, 8, tab3 8 8 fun _ _ _ => 1/2⟩

/-- A uniform 1×1 mid-gray image. -/
def img1 : Img := ⟨1, 1, tab3 1 1 fun _ _ _ => 1/2⟩

/-- A uniform-zero 1×1 focus map. -/
def fmZ : Gray := ⟨1, 1, tab 1 1 fun _ _ => 0⟩

/-- The default `FocusStacker(radius=8, smoothing=4, scale_factor=2)` state. -/
def stkD : Stacker := ⟨8, 4, 2, 17⟩

/-- A concrete oracle instantiation.  Resizes read the clamped source cell
(exact for same-size resizes and uniform sources), blur/bilateral/normalize
pass cells through (exact on uniform and single-pixel buffers, where the
normalized non-negative kernels of the real operators act as the identity),
`sqrt` is the identity (exact at 0 and 1, the only values it is applied to in
the concrete runs below), phase correlation returns a zero shift on same-shape
fields and raises on mismatched shapes exactly as
`skimage.registration.phase_cross_correlation` does, warps pass through (exact
for a zero-shift translation), and the encoder succeeds. -/
def envW : Env where
  load := fun p =>
    if p = "a" then .ok imgA else if p = "b" then .ok imgB else .error "Failed to load image"
  resizeLin := fun sh sw d _ _ i j => atD d (min i (sh - 1)) (min j (sw - 1))
  resizeLanC := fun sh sw d _ _ i j c => at3D d (min i (sh - 1)) (min j (sw - 1)) c
  gaussBlur := fun _ _ _ _ d i j => atD d i j
  bilateral := fun _ _ _ _ _ d i j => atD d i j
  normalizeU8 := fun _ _ d i j => atD d i j
  sqrtQ := fun q => q
  phaseCorr := fun g1 g2 =>
    if g1.h = g2.h ∧ g1.w = g2.w then .ok (0, 0) else .error "images must be same shape"
  warpG := fun _ _ _ d i j => atD d i j
  warpC := fun _ _ _ d i j c => at3D d i j c
  matchT := fun _ _ => .ok 1
  ecc := fun _ _ => .error "ecc did not converge"
  encode := fun _ _ _ => .ok ()

/-- `envW` with a phase-correlation oracle that always raises (the scenario of
an unrelated target image making `phase_cross_correlation` fail). -/
def envF : Env := { envW with phaseCorr := fun _ _ => .error "phase correlation failed" }

/-! ## Basic lemmas about the matrix toolkit -/

theorem atD_tab (h w : ℕ) (f : ℕ → ℕ → ℚ) (i j : ℕ) (hi : i < h) (hj : j < w) :
    atD (tab h w f) i j = f i j := by
  simp [atD, tab, List.getD, List.getElem?_map, List.getElem?_range, hi, hj]

theorem at3D_tab3 (h w : ℕ) (f : ℕ → ℕ → ℕ → ℚ) (i j c : ℕ)
    (hi : i < h) (hj : j < w) (hc : c < 3) :
    at3D (tab3 h w f) i j c = f i j c := by
  simp [at3D, tab3, List.getD, List.getElem?_map, List.getElem?_range, hi, hj, hc]

theorem clipQ_le_hi (x lo hi : ℚ) : clipQ x lo hi ≤ hi := min_le_right _ _

theorem lo_le_clipQ (x lo hi : ℚ) (h : lo ≤ hi) : lo ≤ clipQ x lo hi :=
  le_min (le_max_right x lo) h

theorem le_rowMax (f : ℕ → ℚ) (n i : ℕ) (hi : i ≤ n) : f i ≤ rowMax f n := by
  induction n with
  | zero => simp_all [rowMax]
  | succ m ih =>
    rcases Nat.lt_or_ge i (m + 1) with hlt | hge
    · exact le_trans (ih (Nat.lt_succ_iff.mp hlt)) (le_max_left _ _)
    · have : i = m + 1 := le_antisymm hi hge
      subst this; exact le_max_right _ _

theorem rowMin_le (f : ℕ → ℚ) (n i : ℕ) (hi : i ≤ n) : rowMin f n ≤ f i := by
  induction n with
  | zero => simp_all [rowMin]
  | succ m ih =>
    rcases Nat.lt_or_ge i (m + 1) with hlt | hge
    · exact le_trans (min_le_left _ _) (ih (Nat.lt_succ_iff.mp hlt))
    · have : i = m + 1 := le_antisymm hi hge
      subst this; exact min_le_right _ _

theorem rowMax_unif (f : ℕ → ℚ) (n : ℕ) (c : ℚ) (h : ∀ i ≤ n, f i = c) :
    rowMax f n = c := by
  induction n with
  | zero => simpa [rowMax] using h 0 (le_refl 0)
  | succ m ih =>
    have h1 : rowMax f m = c := ih fun i hi => h i (le_trans hi (Nat.le_succ m))
    simp [rowMax, h1, h (m + 1) (le_refl _)]

theorem rowMin_unif (f : ℕ → ℚ) (n : ℕ) (c : ℚ) (h : ∀ i ≤ n, f i = c) :
    rowMin f n = c := by
  induction n with
  | zero => simpa [rowMin] using h 0 (le_refl 0)
  | succ m ih =>
    have h1 : rowMin f m = c := ih fun i hi => h i (le_trans hi (Nat.le_succ m))
    simp [rowMin, h1, h (m + 1) (le_refl _)]

theorem le_matMax (h w : ℕ) (g : ℕ → ℕ → ℚ) (i j : ℕ) (hi : i < h) (hj : j < w) :
    g i j ≤ matMax h w g :=
  le_trans (le_rowMax (g i) (w - 1) j (Nat.le_pred_of_lt hj))
    (le_rowMax (fun i => rowMax (g i) (w - 1)) (h - 1) i (Nat.le_pred_of_lt hi))

theorem matMin_le (h w : ℕ) (g : ℕ → ℕ → ℚ) (i j : ℕ) (hi : i < h) (hj : j < w) :
    matMin h w g ≤ g i j :=
  le_trans (rowMin_le (fun i => rowMin (g i) (w - 1)) (h - 1) i (Nat.le_pred_of_lt hi))
    (rowMin_le (g i) (w - 1) j (Nat.le_pred_of_lt hj))

theorem matMax_unif (h w : ℕ) (g : ℕ → ℕ → ℚ) (c : ℚ) (hh : 0 < h) (hw : 0 < w)
    (hu : ∀ i j, i < h → j < w → g i j = c) : matMax h w g = c := by
  unfold matMax
  exact rowMax_unif _ _ _ fun i hi =>
    rowMax_unif _ _ _ fun j hj =>
      hu i j (Nat.lt_of_le_pred hh hi) (Nat.lt_of_le_pred hw hj)

theorem matMin_unif (h w : ℕ) (g : ℕ → ℕ → ℚ) (c : ℚ) (hh : 0 < h) (hw : 0 < w)
    (hu : ∀ i j, i < h → j < w → g i j = c) : matMin h w g = c := by
  unfold matMin
  exact rowMin_unif _ _ _ fun i hi =>
    rowMin_unif _ _ _ fun j hj =>
      hu i j (Nat.lt_of_le_pred hh hi) (Nat.lt_of_le_pred hw hj)

theorem refl101_lt (n : ℕ) (z : ℤ) (hn : 0 < n) (h1 : -1 ≤ z) (h2 : z ≤ (n : ℤ)) :
    refl101 n z < n := by
  unfold refl101
  split
  · omega
  · split
    · omega
    · split
      · omega
      · omega

theorem corr3_unif (K : ℕ → ℕ → ℚ) (h w : ℕ) (d : List (List ℚ)) (c : ℚ)
    (hh : 0 < h) (hw : 0 < w) (hu : ∀ i j, i < h → j < w → atD d i j = c)
    (i j : ℕ) (hi : i < h) (hj : j < w) :
    corr3 K h w d i j = (∑ a ∈ Finset.range 3, ∑ b ∈ Finset.range 3, K a b) * c := by
  unfold corr3
  rw [Finset.sum_mul]
  refine Finset.sum_congr rfl fun a ha => ?_
  rw [Finset.sum_mul]
  refine Finset.sum_congr rfl fun b hb => ?_
  have ha3 : a < 3 := Finset.mem_range.mp ha
  have hb3 : b < 3 := Finset.mem_range.mp hb
  rw [hu _ _ (refl101_lt h _ hh (by omega) (by omega))
      (refl101_lt w _ hw (by omega) (by omega))]

theorem sum_sobelXK : (∑ a ∈ Finset.range 3, ∑ b ∈ Finset.range 3, sobelXK a b) = 0 := by
  norm_num [Finset.sum_range_succ, sobelXK]

theorem sum_sobelYK : (∑ a ∈ Finset.range 3, ∑ b ∈ Finset.range 3, sobelYK a b) = 0 := by
  norm_num [Finset.sum_range_succ, sobelYK]

theorem sum_lapK : (∑ a ∈ Finset.range 3, ∑ b ∈ Finset.range 3, lapK a b) = 0 := by
  norm_num [Finset.sum_range_succ, lapK]

/-- Successful loads propagate through the loading loop. -/
theorem load_all_ok (env : Env) (paths : List String)
    (h : ∀ p ∈ paths, exOk (env.load p) = true) :
    ∃ imgs, load_all env paths = .ok imgs := by
  induction paths with
  | nil => exact ⟨[], rfl⟩
  | cons p ps ih =>
    have hp := h p (List.mem_cons_self p ps)
    obtain ⟨i, hi⟩ : ∃ i, env.load p = .ok i := by
      cases hload : env.load p with
      | ok v => exact ⟨v, rfl⟩
      | error e => rw [hload] at hp; simp [exOk] at hp
    obtain ⟨imgs, himgs⟩ := ih fun q hq => h q (List.mem_cons_of_mem p hq)
    exact ⟨i :: imgs, by simp only [load_all, hi, himgs]; rfl⟩

/-! ## The claims -/

/-- C10: for every input list of fewer than 2 image paths, `process_stack`
raises the input error and attempts no processing — the result is the input
error for every oracle environment, so no load and no pipeline stage can have
been consulted. -/
theorem C10_short_stack_input_error (env : Env) (st : Stacker)
    (paths : List String) (cs : String) (h : paths.length < 2) :
    process_stack env st paths cs = .error .inputError := by
  simp [process_stack, h]

/-- Witness for C10 at the concrete one-element stack `["a"]`. -/
theorem C10_short_stack_input_error_witness :
    (["a"] : List String).length < 2 ∧
      process_stack envW stkD ["a"] "sRGB" = .error .inputError :=
  ⟨by decide, C10_short_stack_input_error envW stkD ["a"] "sRGB" (by decide)⟩

/-- C2: for every stack of `N ≥ 2` same-size images, `_align_images` returns
exactly `N` images and element 0 of the result is the unmodified input
reference, for every oracle environment. -/
theorem C2_align_length_and_reference (env : Env) (images : List Img)
    (h2 : 2 ≤ images.length) (hs : sameSize images) :
    (align_images env images).length = images.length ∧
      (align_images env images).head? = images.head? := by
  match images with
  | [] => simp at h2
  | ref :: rest => simp [align_images]

/-- Witness for C2 at a concrete same-size two-image stack. -/
theorem C2_align_length_and_reference_witness :
    2 ≤ ([img1, img1] : List Img).length ∧ sameSize [img1, img1] ∧
      ((align_images envW [img1, img1]).length = ([img1, img1] : List Img).length ∧
        (align_images envW [img1, img1]).head? = ([img1, img1] : List Img).head?) :=
  ⟨by decide, by decide,
    C2_align_length_and_reference envW [img1, img1] (by decide) (by decide)⟩

/-- C7: whenever the per-image alignment attempt for a non-reference image
raises, `_align_images` substitutes the unmodified original image in that slot
and the batch still produces one output per input. -/
theorem C7_alignment_fallback (env : Env) (ref : Img) (rest : List Img)
    (k : ℕ) (hk : k < rest.length) (msg : String)
    (hfail : tryAlignOne env (toGray8 ref) rest[k] = .error msg) :
    (align_images env (ref :: rest))[k + 1]? = some rest[k] ∧
      (align_images env (ref :: rest)).length = rest.length + 1 := by
  constructor
  · rw [align_images]
    rw [List.getElem?_cons_succ, List.getElem?_map, List.getElem?_eq_getElem hk]
    simp [align_one, hfail]
  · simp [align_images]

/-- Witness for C7: with a phase-correlation oracle that raises, the second
image of a concrete stack is passed through unmodified. -/
theorem C7_alignment_fallback_witness :
    tryAlignOne envF (toGray8 img1) ([imgA] : List Img)[0] = .error "phase correlation failed" ∧
      ((align_images envF (img1 :: [imgA]))[0 + 1]? = some ([imgA] : List Img)[0] ∧
        (align_images envF (img1 :: [imgA])).length = [imgA].length + 1) := by
  have hfail : tryAlignOne envF (toGray8 img1) ([imgA] : List Img)[0] =
      .error "phase correlation failed" := by decide
  exact ⟨hfail,
    C7_alignment_fallback envF img1 [imgA] 0 (by decide) "phase correlation failed" hfail⟩

/-- C8: `radius` and `smoothing` are validated by the constructor but never
consumed by the pipeline: any two in-range configurations sharing a
`scale_factor` construct successfully and make `process_stack` compute
identical results on every input. -/
theorem C8_radius_smoothing_unused (r1 s1 r2 s2 sf : ℕ)
    (hr1 : 1 ≤ r1) (hr1b : r1 ≤ 20) (hr2 : 1 ≤ r2) (hr2b : r2 ≤ 20)
    (hs1 : 1 ≤ s1) (hs1b : s1 ≤ 10) (hs2 : 1 ≤ s2) (hs2b : s2 ≤ 10)
    (hf : 1 ≤ sf) (hfb : sf ≤ 4) :
    ∃ st1 st2 : Stacker,
      mk_stacker r1 s1 sf = .ok st1 ∧ mk_stacker r2 s2 sf = .ok st2 ∧
        ∀ (env : Env) (paths : List String) (cs : String),
          process_stack env st1 paths cs = process_stack env st2 paths cs := by
  refine ⟨⟨r1, s1, sf, 2 * r1 + 1⟩, ⟨r2, s2, sf, 2 * r2 + 1⟩, ?_, ?_, ?_⟩
  · simp [mk_stacker, hr1, hr1b, hs1, hs1b, hf, hfb]
  · simp [mk_stacker, hr2, hr2b, hs2, hs2b, hf, hfb]
  · intro env paths cs
    rfl

/-- Witness for C8 at radii 2 vs 8 and smoothings 1 vs 4, scale factor 2. -/
theorem C8_radius_smoothing_unused_witness :
    ∃ st1 st2 : Stacker,
      mk_stacker 2 1 2 = .ok st1 ∧ mk_stacker 8 4 2 = .ok st2 ∧
        ∀ (env : Env) (paths : List String) (cs : String),
          process_stack env st1 paths cs = process_stack env st2 paths cs :=
  C8_radius_smoothing_unused 2 1 8 4 2 (by decide) (by decide) (by decide) (by decide)
    (by decide) (by decide) (by decide) (by decide) (by decide) (by decide)

/-- C1 (amended): `process_stack` performs no dimension validation at all.
With at least two paths whose loads succeed and the default `sRGB` color
space, the run completes without raising — whatever the image dimensions —
because per-image alignment failures fall back to the original images and the
blend stage resizes every image and focus map to the reference size. -/
theorem C1_no_dimension_check (env : Env) (st : Stacker) (paths : List String)
    (h2 : 2 ≤ paths.length) (hl : ∀ p ∈ paths, exOk (env.load p) = true) :
    psOk (process_stack env st paths "sRGB") = true := by
  obtain ⟨imgs, himgs⟩ := load_all_ok env paths hl
  simp [process_stack, Nat.not_lt.mpr h2, himgs, psOk]

/-- Witness for C1 (amended) on a concrete two-image stack. -/
theorem C1_no_dimension_check_witness :
    psOk (process_stack envW stkD ["a", "b"] "sRGB") = true :=
  C1_no_dimension_check envW stkD ["a", "b"] (by decide) (by decide)

/-- Counterexample to C1 as stated: `envW.load` yields a 4×4 image for `"a"`
and an 8×8 image for `"b"` — a stack with mismatched dimensions — yet
`process_stack` completes successfully instead of raising an input error
before alignment/measure/blend (the multi-scale shift estimation fails on the
mismatched shapes exactly as `phase_cross_correlation` does, alignment falls
back to the original image, and blending resizes everything to 4×4). -/
theorem C1_counterexample :
    imgA.h ≠ imgB.h ∧ psOk (process_stack envW stkD ["a", "b"] "sRGB") = true := by
  constructor
  · decide
  · decide

/-- C9 (amended): the saved bytes are the round-to-nearest 8-bit quantization
of the float image (for in-range values the quantized byte is within 1/2 of
`255·x`), and `save_image` hands the image to the JPEG encoder at quality 95
exactly when the ASCII uppercasing of `format` is `"JPEG"`, raising the
unsupported-format error otherwise. -/
theorem C9_save_quantize_and_format :
    (∀ x : ℚ, 0 ≤ x → x ≤ 1 → |255 * x - quantize8 x| ≤ 1/2) ∧
    ∀ (env : Env) (img : Img) (path fmt cs : String),
      (pyUpper fmt = "JPEG" →
        save_image env img path fmt cs =
          env.encode path (tab3 img.h img.w fun i j c => quantize8 (img.px i j c)) 95) ∧
      (pyUpper fmt ≠ "JPEG" →
        save_image env img path fmt cs = .error ("Unsupported format: " ++ fmt)) := by
  constructor
  · intro x hx0 hx1
    have h0 : (0 : ℚ) ≤ x * 255 + 1/2 := by linarith
    rcases le_or_lt (x * 255 + 1/2) 255 with hle | hgt
    · have hq : quantize8 x = ((⌊x * 255 + 1/2⌋ : ℤ) : ℚ) := by
        rw [quantize8, clipQ, max_eq_left h0, min_eq_left hle]
      have hf1 : ((⌊x * 255 + 1/2⌋ : ℤ) : ℚ) ≤ x * 255 + 1/2 := Int.floor_le _
      have hf2 : x * 255 + 1/2 - 1 < ((⌊x * 255 + 1/2⌋ : ℤ) : ℚ) := Int.sub_one_lt_floor _
      rw [hq, abs_le]
      constructor <;> linarith
    · have hq : quantize8 x = ((⌊(255 : ℚ)⌋ : ℤ) : ℚ) := by
        rw [quantize8, clipQ, max_eq_left h0, min_eq_right hgt.le]
      rw [hq]
      norm_num
      rw [abs_le]
      constructor <;> linarith
  · intro env img path fmt cs
    constructor
    · intro h
      simp [save_image, h, Img.px]
    · intro h
      simp [save_image, h]

/-- Witness for C9 (amended): quantization accuracy at `x = 1/2`, encoding for
`"JPEG"`, and the error for `"png"`. -/
theorem C9_save_quantize_and_format_witness :
    |255 * (1/2 : ℚ) - quantize8 (1/2)| ≤ 1/2 ∧
      save_image envW imgA "p" "JPEG" "sRGB" =
        envW.encode "p" (tab3 imgA.h imgA.w fun i j c => quantize8 (imgA.px i j c)) 95 ∧
      save_image envW imgA "p" "png" "sRGB" = .error ("Unsupported format: " ++ "png") :=
  ⟨C9_save_quantize_and_format.1 (1/2) (by norm_num) (by norm_num),
    (C9_save_quantize_and_format.2 envW imgA "p" "JPEG" "sRGB").1 (by decide),
    (C9_save_quantize_and_format.2 envW imgA "p" "png" "sRGB").2 (by decide)⟩

/-- Counterexample to C9 as stated: the lowercase format value jpeg is not the
exact string JPEG, yet `save_image` succeeds on it — the source compares the
uppercased format — contradicting the claim that save succeeds only for the
format value JPEG and raises for any other value. -/
theorem C9_counterexample :
    ("jpeg" : String) ≠ "JPEG" ∧
      save_image envW imgA "out.jpg" "jpeg" "sRGB" = .ok () := by
  constructor
  · decide
  · decide

/-- A matrix is spatially uniform with value `c` on its `h × w` range. -/
def unifOn (h w : ℕ) (d : List (List ℚ)) (c : ℚ) : Prop :=
  ∀ i j, i < h → j < w → atD d i j = c

/-- The uniformity contracts the real resampling libraries satisfy: resizing
or blurring a spatially uniform buffer yields the same uniform value (the
kernels are normalized and non-negative, with reflected borders), and the
square root of 0 is 0. -/
structure EnvUniform (env : Env) : Prop where
  blurUnif : ∀ (k : ℕ) (σ : ℚ) (h w : ℕ) (d : List (List ℚ)) (c : ℚ),
    0 < h → 0 < w → unifOn h w d c →
    ∀ i j, i < h → j < w → env.gaussBlur k σ h w d i j = c
  resizeUnif : ∀ (sh sw : ℕ) (d : List (List ℚ)) (dh dw : ℕ) (c : ℚ),
    0 < sh → 0 < sw → unifOn sh sw d c →
    ∀ i j, i < dh → j < dw → env.resizeLin sh sw d dh dw i j = c
  sqrt0 : env.sqrtQ 0 = 0

theorem natRound_pos (q : ℚ) (hq : 1/2 ≤ q) : 0 < natRound q := by
  have h1 : (1 : ℤ) ≤ ⌊q + 1/2⌋ := by
    apply Int.le_floor.mpr
    push_cast
    linarith
  unfold natRound
  omega

/-- `envW` satisfies the uniformity contracts. -/
theorem envW_uniform : EnvUniform envW := by
  refine ⟨?_, ?_, rfl⟩
  · intro k σ h w d c hh hw hu i j hi hj
    exact hu i j hi hj
  · intro sh sw d dh dw c hsh hsw hu i j hi hj
    exact hu _ _ (lt_of_le_of_lt (min_le_right _ _) (Nat.sub_lt hsh one_pos))
      (lt_of_le_of_lt (min_le_right _ _) (Nat.sub_lt hsw one_pos))

theorem toGray8_unif (img : Img) (r g b : ℚ)
    (hu : ∀ i j, i < img.h → j < img.w →
      img.px i j 0 = r ∧ img.px i j 1 = g ∧ img.px i j 2 = b) :
    unifOn img.h img.w (toGray8 img).d
      ((⌊(299 * u8 r + 587 * u8 g + 114 * u8 b) / 1000 + 1/2⌋ : ℤ) : ℚ) := by
  intro i j hi hj
  simp only [toGray8]
  rw [atD_tab _ _ _ _ _ hi hj, (hu i j hi hj).1, (hu i j hi hj).2.1, (hu i j hi hj).2.2]

theorem corr3_unif0 (K : ℕ → ℕ → ℚ) (h w : ℕ) (d : List (List ℚ)) (c : ℚ)
    (hsum : (∑ a ∈ Finset.range 3, ∑ b ∈ Finset.range 3, K a b) = 0)
    (hh : 0 < h) (hw : 0 < w) (hu : unifOn h w d c) :
    unifOn h w (tab h w (corr3 K h w d)) 0 := by
  intro i j hi hj
  rw [atD_tab _ _ _ _ _ hi hj, corr3_unif K h w d c hh hw hu i j hi hj, hsum, zero_mul]

theorem fm_gradmag_unif (env : Env) (he : EnvUniform env) (h w : ℕ)
    (d : List (List ℚ)) (c : ℚ) (hh : 0 < h) (hw : 0 < w) (hu : unifOn h w d c) :
    unifOn h w (fm_gradmag env h w d) 0 := by
  intro i j hi hj
  simp only [fm_gradmag]
  rw [atD_tab _ _ _ _ _ hi hj,
    corr3_unif0 sobelXK h w d c sum_sobelXK hh hw hu i j hi hj,
    corr3_unif0 sobelYK h w d c sum_sobelYK hh hw hu i j hi hj]
  norm_num [he.sqrt0]

theorem fm_scale_term_unif1 (env : Env) (h w : ℕ) (gd gm lap : List (List ℚ))
    (hlap : unifOn h w lap 0) :
    unifOn h w (fm_scale_term env h w gd gm lap 1) 0 := by
  intro i j hi hj
  simp only [fm_scale_term, eq_self_iff_true, if_true, atD_tab, hi, hj]
  rw [hlap i j hi hj]
  simp

theorem fm_scale_term_unif_ne (env : Env) (he : EnvUniform env) (h w : ℕ)
    (gd gm lap : List (List ℚ)) (s : ℚ) (hs : ¬ s = 1) (hh : 0 < h) (hw : 0 < w)
    (hnh : 0 < natRound (s * (h : ℚ))) (hnw : 0 < natRound (s * (w : ℚ)))
    (hlap : unifOn h w lap 0) :
    unifOn h w (fm_scale_term env h w gd gm lap s) 0 := by
  intro i j hi hj
  simp only [fm_scale_term, if_neg hs]
  rw [atD_tab _ _ _ _ _ hi hj]
  apply he.resizeUnif _ _ _ _ _ _ hnh hnw _ i j hi hj
  intro a b ha hb
  simp only [atD_tab, ha, hb]
  rw [he.resizeUnif h w lap _ _ 0 hh hw hlap a b ha hb]
  simp

theorem fm_raw_unif (env : Env) (he : EnvUniform env) (h w : ℕ)
    (gd gm lap : List (List ℚ)) (h2 : 2 ≤ h) (w2 : 2 ≤ w)
    (hlap : unifOn h w lap 0) :
    unifOn h w (fm_raw env h w gd gm lap) 0 := by
  have hh : 0 < h := by omega
  have hw : 0 < w := by omega
  have hcast2h : (2 : ℚ) ≤ (h : ℚ) := by exact_mod_cast h2
  have hcast2w : (2 : ℚ) ≤ (w : ℚ) := by exact_mod_cast w2
  have t1 := fm_scale_term_unif1 env h w gd gm lap hlap
  have t2 := fm_scale_term_unif_ne env he h w gd gm lap (1/2) (by norm_num) hh hw
    (natRound_pos _ (by linarith)) (natRound_pos _ (by linarith)) hlap
  have t3 := fm_scale_term_unif_ne env he h w gd gm lap (1/4) (by norm_num) hh hw
    (natRound_pos _ (by linarith)) (natRound_pos _ (by linarith)) hlap
  intro i j hi hj
  simp only [fm_raw, List.foldl_cons, List.foldl_nil]
  simp only [atD_tab, hi, hj]
  rw [t1 i j hi hj, t2 i j hi hj, t3 i j hi hj]
  norm_num

theorem fm_norm1_unif0 (h w : ℕ) (d : List (List ℚ)) (hh : 0 < h) (hw : 0 < w)
    (hu : unifOn h w d 0) : unifOn h w (fm_norm1 h w d) 0 := by
  intro i j hi hj
  simp only [fm_norm1]
  rw [atD_tab _ _ _ _ _ hi hj, matMin_unif h w (atD d) 0 hh hw hu,
    matMax_unif h w (atD d) 0 hh hw hu, hu i j hi hj]
  norm_num [eps6]

theorem fm_boost_unif0 (h w : ℕ) (lap d : List (List ℚ)) (hu : unifOn h w d 0) :
    unifOn h w (fm_boost h w lap d) 0 := by
  intro i j hi hj
  simp only [fm_boost]
  rw [atD_tab _ _ _ _ _ hi hj, hu i j hi hj, zero_mul]

theorem fm_final_unif0 (h w : ℕ) (d : List (List ℚ)) (hh : 0 < h) (hw : 0 < w)
    (hu : unifOn h w d 0) : unifOn h w (fm_final h w d) 0 := by
  intro i j hi hj
  simp only [fm_final]
  rw [atD_tab _ _ _ _ _ hi hj, matMin_unif h w (atD d) 0 hh hw hu,
    matMax_unif h w (atD d) 0 hh hw hu, hu i j hi hj]
  norm_num [clipQ, eps6]

/-- Membership of the final focus-map normalize-and-clip in `[0,1]`. -/
theorem fm_final_mem (h w : ℕ) (d : List (List ℚ)) (i j : ℕ)
    (hi : i < h) (hj : j < w) :
    0 ≤ atD (fm_final h w d) i j ∧ atD (fm_final h w d) i j ≤ 1 := by
  simp only [fm_final]
  rw [atD_tab _ _ _ _ _ hi hj]
  exact ⟨lo_le_clipQ _ _ _ (by norm_num), clipQ_le_hi _ _ _⟩

/-- C5: for every input image the focus measure is within `[0,1]` (conjunct 1,
for every oracle environment); a spatially uniform input image is processed
with all divisions epsilon-guarded and produces the all-zero map (conjunct 2,
for every environment whose resampling oracles respect the uniformity
contracts; image sides of at least 2 keep every intermediate downsampled
buffer nonempty, matching what `cv2.resize` requires of the real code). -/
theorem C5_focus_measure_range_and_uniform :
    (∀ (env : Env) (img : Img), 0 < img.h → 0 < img.w →
      ∀ i j, i < img.h → j < img.w →
        0 ≤ (focus_measure env img).px i j ∧ (focus_measure env img).px i j ≤ 1) ∧
    (∀ (env : Env) (img : Img) (r g b : ℚ), EnvUniform env → 2 ≤ img.h → 2 ≤ img.w →
      (∀ i j, i < img.h → j < img.w →
        img.px i j 0 = r ∧ img.px i j 1 = g ∧ img.px i j 2 = b) →
      ∀ i j, i < img.h → j < img.w → (focus_measure env img).px i j = 0) := by
  constructor
  · intro env img hh hw i j hi hj
    simp only [focus_measure, Gray.px]
    exact fm_final_mem _ _ _ _ _ hi hj
  · intro env img r g b he h2 w2 hu i j hi hj
    have hh : 0 < img.h := by omega
    have hw : 0 < img.w := by omega
    have hg := toGray8_unif img r g b hu
    have hlap := corr3_unif0 lapK img.h img.w (toGray8 img).d _ sum_lapK hh hw hg
    have hraw := fm_raw_unif env he img.h img.w (toGray8 img).d
      (fm_gradmag env img.h img.w (toGray8 img).d)
      (tab img.h img.w (corr3 lapK img.h img.w (toGray8 img).d)) h2 w2 hlap
    have hn1 := fm_norm1_unif0 img.h img.w _ hh hw hraw
    have hb := fm_boost_unif0 img.h img.w
      (tab img.h img.w (corr3 lapK img.h img.w (toGray8 img).d)) _ hn1
    have hfin := fm_final_unif0 img.h img.w _ hh hw hb
    simp only [focus_measure, Gray.px]
    exact hfin i j hi hj

/-- Witness for C5 at the uniform 4×4 mid-gray image and the oracle
environment `envW`. -/
theorem C5_focus_measure_range_and_uniform_witness :
    (0 ≤ (focus_measure envW imgA).px 0 0 ∧ (focus_measure envW imgA).px 0 0 ≤ 1) ∧
      (focus_measure envW imgA).px 0 0 = 0 :=
  ⟨C5_focus_measure_range_and_uniform.1 envW imgA (by decide) (by decide) 0 0
      (by decide) (by decide),
    C5_focus_measure_range_and_uniform.2 envW imgA (1/2) (1/2) (1/2) envW_uniform
      (by decide) (by decide)
      (fun i j hi hj =>
        ⟨at3D_tab3 4 4 (fun _ _ _ => (1/2 : ℚ)) i j 0 hi hj (by norm_num),
          at3D_tab3 4 4 (fun _ _ _ => (1/2 : ℚ)) i j 1 hi hj (by norm_num),
          at3D_tab3 4 4 (fun _ _ _ => (1/2 : ℚ)) i j 2 hi hj (by norm_num)⟩)
      0 0 (by decide) (by decide)⟩

/-! ## Evaluation helpers for concrete runs -/

theorem clipQ_lo (x lo hi : ℚ) (h1 : x ≤ lo) (h2 : lo ≤ hi) : clipQ x lo hi = lo := by
  rw [clipQ, max_eq_right h1, min_eq_left h2]

theorem clipQ_hi (x lo hi : ℚ) (h1 : hi ≤ x) : clipQ x lo hi = hi :=
  min_eq_right (le_trans h1 (le_max_left x lo))

theorem clipQ_mid (x lo hi : ℚ) (h1 : lo ≤ x) (h2 : x ≤ hi) : clipQ x lo hi = x := by
  rw [clipQ, max_eq_left h1, min_eq_left h2]

theorem atD_single (x : ℚ) : atD [[x]] 0 0 = x := rfl

theorem matMax_one (g : ℕ → ℕ → ℚ) : matMax 1 1 g = g 0 0 := rfl

theorem matMin_one (g : ℕ → ℕ → ℚ) : matMin 1 1 g = g 0 0 := rfl

theorem matMean_one (g : ℕ → ℕ → ℚ) : matMean 1 1 g = g 0 0 := by
  simp [matMean, Finset.sum_range_one]

theorem matVar_one (g : ℕ → ℕ → ℚ) : matVar 1 1 g = g 0 0 * g 0 0 - (g 0 0) ^ 2 := by
  simp [matVar, matMean_one]

theorem cconv_one (K : ℕ → ℕ → ℚ) (d : List (List ℚ)) :
    cconv K 1 1 d 0 0 = K 0 0 * atD d 0 0 := by
  norm_num [cconv, Finset.sum_range_one]

theorem corr3_one (K : ℕ → ℕ → ℚ) (d : List (List ℚ)) :
    corr3 K 1 1 d 0 0 =
      (∑ a ∈ Finset.range 3, ∑ b ∈ Finset.range 3, K a b) * atD d 0 0 :=
  corr3_unif K 1 1 d (atD d 0 0) one_pos one_pos
    (fun i j hi hj => by
      have hi0 : i = 0 := by omega
      have hj0 : j = 0 := by omega
      rw [hi0, hj0])
    0 0 one_pos one_pos

theorem tab_one (f : ℕ → ℕ → ℚ) : tab 1 1 f = [[f 0 0]] := by
  simp [tab, show List.range 1 = [0] from rfl]

/-- Membership of the final clip in `[0,1]`. -/
theorem blend_final_mem (h w : ℕ) (d : List (List (List ℚ))) (i j c : ℕ)
    (hi : i < h) (hj : j < w) (hc : c < 3) :
    0 ≤ at3D (blend_final h w d) i j c ∧ at3D (blend_final h w d) i j c ≤ 1 := by
  rw [blend_final, at3D_tab3 _ _ _ _ _ _ hi hj hc]
  exact ⟨lo_le_clipQ _ _ _ (by norm_num), clipQ_le_hi _ _ _⟩

/-- C6: for every aligned-image list and focus-map list (nonempty, as the
pipeline guarantees), the blend output has the spatial size of the first
aligned image — after the upsample/downsample round-trip in the
`scale_factor > 1` case — and every value lies in `[0, 1]`, for every oracle
environment. -/
theorem C6_blend_bounds_and_shape (env : Env) (sf : ℕ) (aligned : List Img)
    (fms : List Gray) (ha : aligned ≠ []) (hf : fms ≠ []) :
    ((blend_images env sf aligned fms).h = aligned.headI.h ∧
      (blend_images env sf aligned fms).w = aligned.headI.w) ∧
    ∀ i j c, i < aligned.headI.h → j < aligned.headI.w → c < 3 →
      0 ≤ (blend_images env sf aligned fms).px i j c ∧
        (blend_images env sf aligned fms).px i j c ≤ 1 := by
  refine ⟨⟨rfl, rfl⟩, ?_⟩
  intro i j c hi hj hc
  show 0 ≤ at3D (blend_core env sf aligned fms) i j c ∧
    at3D (blend_core env sf aligned fms) i j c ≤ 1
  simp only [blend_core]
  exact blend_final_mem _ _ _ _ _ _ hi hj hc

/-- Witness for C6 at a concrete single-image blend. -/
theorem C6_blend_bounds_and_shape_witness :
    ((blend_images envW 1 [img1] [fmZ]).h = ([img1] : List Img).headI.h ∧
      (blend_images envW 1 [img1] [fmZ]).w = ([img1] : List Img).headI.w) ∧
    ∀ i j c, i < ([img1] : List Img).headI.h → j < ([img1] : List Img).headI.w → c < 3 →
      0 ≤ (blend_images envW 1 [img1] [fmZ]).px i j c ∧
        (blend_images envW 1 [img1] [fmZ]).px i j c ≤ 1 :=
  C6_blend_bounds_and_shape envW 1 [img1] [fmZ] (by decide) (by decide)

/-- The sharpening of one channel, written through its named components:
the output cell of the code is
`base + sharp·strength·0.5·contrast + high_freq·0.2·contrast + fine_detail·0.1·contrast`. -/
theorem sharpen_channel_cell (env : Env) (nh nw : ℕ) (fmask base : List (List ℚ))
    (i j : ℕ) (hi : i < nh) (hj : j < nw) :
    atD (sharpen_channel env nh nw fmask base) i j
      = atD base i j
        + cconv sharpK nh nw base i j * sharpen_strength env nh nw fmask base i j * (1/2)
            * contrast_mask nh nw base i j
        + cconv highfreqK nh nw base i j * (1/5) * contrast_mask nh nw base i j
        + cconv detailK nh nw base i j * (1/10) * contrast_mask nh nw base i j := by
  simp only [sharpen_channel, sharpen_strength, detail_mask, contrast_mask, atD_tab, hi, hj]

/-- C4 (amended): each sharpened channel equals
`base + sharpen_response × sharp_strength × 0.5 × contrast_mask
+ high_freq_response × 0.2 × contrast_mask
+ fine_detail_response × 0.1 × contrast_mask`, where the three responses are
the cyclic (frequency-domain) convolutions of the base channel with the fixed
kernels, `contrast_mask` is the normalized edge magnitude clipped to
`[0.2, 0.6]`, and — unlike the claim as stated — the sharpen term also carries
the adaptive factor `sharp_strength ∈ [0.8, 0.99]`. -/
theorem C4_sharpen_formula (env : Env) (nh nw : ℕ) (fmask base : List (List ℚ))
    (i j : ℕ) (hi : i < nh) (hj : j < nw) :
    atD (sharpen_channel env nh nw fmask base) i j
      = atD base i j
        + cconv sharpK nh nw base i j * sharpen_strength env nh nw fmask base i j * (1/2)
            * contrast_mask nh nw base i j
        + cconv highfreqK nh nw base i j * (1/5) * contrast_mask nh nw base i j
        + cconv detailK nh nw base i j * (1/10) * contrast_mask nh nw base i j
    ∧ 4/5 ≤ sharpen_strength env nh nw fmask base i j
    ∧ sharpen_strength env nh nw fmask base i j ≤ 99/100
    ∧ 1/5 ≤ contrast_mask nh nw base i j
    ∧ contrast_mask nh nw base i j ≤ 3/5 := by
  refine ⟨sharpen_channel_cell env nh nw fmask base i j hi hj, ?_, ?_, ?_, ?_⟩
  · simp only [sharpen_strength]
    exact lo_le_clipQ _ _ _ (by norm_num)
  · simp only [sharpen_strength]
    exact clipQ_le_hi _ _ _
  · simp only [contrast_mask]
    exact lo_le_clipQ _ _ _ (by norm_num)
  · simp only [contrast_mask]
    exact clipQ_le_hi _ _ _

/-- Witness for C4 (amended) at a concrete 1×1 buffer. -/
theorem C4_sharpen_formula_witness :
    atD (sharpen_channel envW 1 1 [[(1 : ℚ)]] [[(1/2 : ℚ)]]) 0 0
      = atD [[(1/2 : ℚ)]] 0 0
        + cconv sharpK 1 1 [[(1/2 : ℚ)]] 0 0
            * sharpen_strength envW 1 1 [[(1 : ℚ)]] [[(1/2 : ℚ)]] 0 0 * (1/2)
            * contrast_mask 1 1 [[(1/2 : ℚ)]] 0 0
        + cconv highfreqK 1 1 [[(1/2 : ℚ)]] 0 0 * (1/5) * contrast_mask 1 1 [[(1/2 : ℚ)]] 0 0
        + cconv detailK 1 1 [[(1/2 : ℚ)]] 0 0 * (1/10) * contrast_mask 1 1 [[(1/2 : ℚ)]] 0 0
    ∧ 4/5 ≤ sharpen_strength envW 1 1 [[(1 : ℚ)]] [[(1/2 : ℚ)]] 0 0
    ∧ sharpen_strength envW 1 1 [[(1 : ℚ)]] [[(1/2 : ℚ)]] 0 0 ≤ 99/100
    ∧ 1/5 ≤ contrast_mask 1 1 [[(1/2 : ℚ)]] 0 0
    ∧ contrast_mask 1 1 [[(1/2 : ℚ)]] 0 0 ≤ 3/5 :=
  C4_sharpen_formula envW 1 1 [[(1 : ℚ)]] [[(1/2 : ℚ)]] 0 0 one_pos one_pos

/-- The Laplacian-based contrast mask of a 1×1 buffer takes its lower clip
value `0.2`. -/
theorem contrast_mask_one (d : List (List ℚ)) : contrast_mask 1 1 d 0 0 = 1/5 := by
  simp only [contrast_mask, matMax_one, atD_tab, Nat.zero_lt_one]
  rw [corr3_one, sum_lapK, zero_mul, abs_zero, zero_div]
  exact clipQ_lo _ _ _ (by norm_num) (by norm_num)

/-- The adaptive sharpen strength of a uniform 1×1 buffer under `envW` takes
its upper clip value `0.99` when the focus mask is 1 (the local variance is 0,
so the detail mask takes its lower clip 0.4 and `1·(1.4+0.4·0.4) = 1.56`). -/
theorem sharpen_strength_one_envW (b : ℚ) :
    sharpen_strength envW 1 1 [[(1 : ℚ)]] [[b]] 0 0 = 99/100 := by
  have hblur : ∀ (dd : List (List ℚ)) (i j : ℕ), envW.gaussBlur 11 0 1 1 dd i j = atD dd i j :=
    fun _ _ _ => rfl
  simp only [sharpen_strength, detail_mask, matMin_one, matMax_one]
  rw [atD_tab 1 1 _ 0 0 Nat.zero_lt_one Nat.zero_lt_one, hblur, hblur]
  rw [atD_tab 1 1 _ 0 0 Nat.zero_lt_one Nat.zero_lt_one, atD_single, atD_single]
  rw [show b * b - b ^ 2 = 0 by ring]
  norm_num [eps6]
  rw [clipQ_lo 0 (2/5) 1 (by norm_num) (by norm_num)]
  exact clipQ_hi _ _ _ (by norm_num)

/-- The convolution of the 1×1 buffer `[[1/2]]` with the (cropped) sharpen
kernel. -/
theorem cconv_sharpK_half : cconv sharpK 1 1 [[(1/2 : ℚ)]] 0 0 = -2 := by
  rw [cconv_one, atD_single]
  norm_num [sharpK]

/-- The convolution of `[[1/2]]` with the (cropped) high-frequency kernel. -/
theorem cconv_highfreqK_half : cconv highfreqK 1 1 [[(1/2 : ℚ)]] 0 0 = -1 := by
  rw [cconv_one, atD_single]
  norm_num [highfreqK]

/-- The convolution of `[[1/2]]` with the (cropped) fine-detail kernel. -/
theorem cconv_detailK_half : cconv detailK 1 1 [[(1/2 : ℚ)]] 0 0 = -(1/2) := by
  rw [cconv_one, atD_single]
  norm_num [detailK]

/-- The sharpened value of the mid-gray 1×1 channel under a focus mask of 1:
`1/2 - 2·0.99·0.5·0.2 - 1·0.2·0.2 - 0.5·0.1·0.2 = 0.252`. -/
theorem sharpen_one_value :
    atD (sharpen_channel envW 1 1 [[(1 : ℚ)]] [[(1/2 : ℚ)]]) 0 0 = 63/250 := by
  rw [sharpen_channel_cell envW 1 1 [[(1 : ℚ)]] [[(1/2 : ℚ)]] 0 0 one_pos one_pos]
  rw [cconv_sharpK_half, cconv_highfreqK_half, cconv_detailK_half, contrast_mask_one,
    sharpen_strength_one_envW, atD_single]
  norm_num

theorem tab3_one (f : ℕ → ℕ → ℕ → ℚ) : tab3 1 1 f = [[[f 0 0 0, f 0 0 1, f 0 0 2]]] := by
  simp [tab3, show List.range 1 = [0] from rfl, show List.range 3 = [0, 1, 2] from rfl]

theorem tab_corr3_zero (K : ℕ → ℕ → ℚ) : tab 1 1 (corr3 K 1 1 [[(0 : ℚ)]]) = [[0]] := by
  rw [tab_one, corr3_one, atD_single, mul_zero]

/-- The depth mask of a 1×1 zero focus map under `envW` is zero. -/
theorem bw_dmask_one : bw_dmask envW 1 1 [[(0 : ℚ)]] = [[0]] := by
  simp only [bw_dmask]
  rw [tab_corr3_zero, tab_corr3_zero]
  rw [show tab 1 1 (fun i j =>
      envW.sqrtQ (atD [[(0 : ℚ)]] i j * atD [[(0 : ℚ)]] i j +
        atD [[(0 : ℚ)]] i j * atD [[(0 : ℚ)]] i j)) = [[0]] from by
    rw [tab_one, atD_single]
    norm_num
    rfl]
  rw [show tab 1 1 (envW.bilateral 9 75 75 1 1 [[(0 : ℚ)]]) = [[0]] from rfl]
  rw [tab_one, matMin_one, matMax_one, atD_single]
  norm_num [eps6]

/-- One refinement window over 1×1 zero buffers adds nothing. -/
theorem bw_step_one (a : ℚ) (sw : ℕ × ℚ) :
    bw_step envW 1 1 [[(0 : ℚ)]] [[(0 : ℚ)]] [[a]] sw = [[a]] := by
  simp only [bw_step]
  rw [show tab 1 1 (envW.gaussBlur (2 * sw.1 + 1) ((sw.1 : ℚ) / 3) 1 1 [[(0 : ℚ)]]) = [[0]]
      from rfl]
  rw [show tab 1 1 (fun i j =>
      |atD [[(0 : ℚ)]] i j - atD [[(0 : ℚ)]] i j| * (1 + atD [[(0 : ℚ)]] i j)) = [[0]] from by
    rw [tab_one, atD_single]
    norm_num]
  rw [matMean_one, matVar_one, tab_one]
  simp only [atD_single]
  rw [show envW.sqrtQ (0 * 0 - 0 ^ 2) = 0 * 0 - 0 ^ 2 from rfl]
  rw [if_neg (by norm_num)]
  norm_num

/-- The refined focus map of a 1×1 zero focus map under `envW` is zero. -/
theorem bw_fmNew_one : bw_fmNew envW 1 1 [[(0 : ℚ)]] [[(0 : ℚ)]] = [[0]] := by
  simp only [bw_fmNew, List.foldl_cons, List.foldl_nil]
  rw [show tab 1 1 (fun _ _ => (0 : ℚ)) = [[0]] from rfl]
  rw [bw_step_one, bw_step_one, bw_step_one, bw_step_one]

/-- The per-image blend weight of a 1×1 zero focus map under `envW` is zero
(the smoothed refined map is uniform, so its min-max normalization vanishes). -/
theorem blend_weight_one : blend_weight envW 1 1 [[(0 : ℚ)]] = [[0]] := by
  simp only [blend_weight]
  rw [bw_dmask_one, bw_fmNew_one]
  rw [show tab 1 1 (envW.bilateral 11 100 100 1 1 [[(0 : ℚ)]]) = [[0]] from rfl]
  rw [show tab 1 1 (envW.bilateral 7 50 50 1 1 [[(0 : ℚ)]]) = [[0]] from rfl]
  rw [tab_one, matMin_one, matMax_one, atD_single]
  norm_num [eps6]

/-- Accumulating the single (image, focus map) pair of the degenerate stack:
the weight is zero, so both accumulators stay zero. -/
theorem blend_accum_one :
    blend_accum envW 1 1 [(img1, fmZ)] = ([[[(0 : ℚ), 0, 0]]], [[(0 : ℚ)]]) := by
  simp only [blend_accum, List.foldl_cons, List.foldl_nil]
  rw [show tab 1 1 (envW.resizeLin fmZ.h fmZ.w fmZ.d 1 1) = [[(0 : ℚ)]] from rfl]
  rw [blend_weight_one]
  rw [show tab3 1 1 (envW.resizeLanC img1.h img1.w img1.d 1 1) =
      [[[(1/2 : ℚ), 1/2, 1/2]]] from rfl]
  rw [show tab3 1 1 (fun _ _ _ => (0 : ℚ)) = [[[0, 0, 0]]] from rfl]
  rw [show tab 1 1 (fun _ _ => (0 : ℚ)) = [[0]] from rfl]
  rw [tab3_one, tab_one]
  norm_num [at3D, atD]

/-- Dynamic-range restoration of the zero composite against the uniform
mid-gray 1×1 reference: the rescale plants the reference minimum 1/2
everywhere, and the per-channel clip and stretch keep it. -/
theorem blend_restore_one :
    blend_restore 1 1 img1 [[[(0 : ℚ), 0, 0]]] [[(0 : ℚ)]] = [[[(1/2 : ℚ), 1/2, 1/2]]] := by
  have hpx0 : img1.px 0 0 0 = 1/2 := rfl
  have hpx1 : img1.px 0 0 1 = 1/2 := rfl
  have hpx2 : img1.px 0 0 2 = 1/2 := rfl
  have hrefmin : matMin3 img1.h img1.w img1.px = 1/2 := by
    rw [show matMin3 img1.h img1.w img1.px =
        min (min (img1.px 0 0 0) (img1.px 0 0 1)) (img1.px 0 0 2) from rfl]
    rw [hpx0, hpx1, hpx2]
    norm_num
  have hrefmax : matMax3 img1.h img1.w img1.px = 1/2 := by
    rw [show matMax3 img1.h img1.w img1.px =
        max (max (img1.px 0 0 0) (img1.px 0 0 1)) (img1.px 0 0 2) from rfl]
    rw [hpx0, hpx1, hpx2]
    norm_num
  have hz : at3D [[[(0 : ℚ), 0, 0]]] 0 0 0 = 0 := rfl
  have hrmn : matMin3 1 1 (at3D [[[(0 : ℚ), 0, 0]]]) = 0 := by
    rw [show matMin3 1 1 (at3D [[[(0 : ℚ), 0, 0]]]) =
        min (min (at3D [[[(0 : ℚ), 0, 0]]] 0 0 0) (at3D [[[(0 : ℚ), 0, 0]]] 0 0 1))
          (at3D [[[(0 : ℚ), 0, 0]]] 0 0 2) from rfl]
    norm_num [show at3D [[[(0 : ℚ), 0, 0]]] 0 0 0 = 0 from rfl,
      show at3D [[[(0 : ℚ), 0, 0]]] 0 0 1 = 0 from rfl,
      show at3D [[[(0 : ℚ), 0, 0]]] 0 0 2 = 0 from rfl]
  have hrmx : matMax3 1 1 (at3D [[[(0 : ℚ), 0, 0]]]) = 0 := by
    rw [show matMax3 1 1 (at3D [[[(0 : ℚ), 0, 0]]]) =
        max (max (at3D [[[(0 : ℚ), 0, 0]]] 0 0 0) (at3D [[[(0 : ℚ), 0, 0]]] 0 0 1))
          (at3D [[[(0 : ℚ), 0, 0]]] 0 0 2) from rfl]
    norm_num [show at3D [[[(0 : ℚ), 0, 0]]] 0 0 0 = 0 from rfl,
      show at3D [[[(0 : ℚ), 0, 0]]] 0 0 1 = 0 from rfl,
      show at3D [[[(0 : ℚ), 0, 0]]] 0 0 2 = 0 from rfl]
  simp only [blend_restore]
  rw [show tab3 1 1 (fun i j c => at3D [[[(0 : ℚ), 0, 0]]] i j c / (atD [[(0 : ℚ)]] i j + eps10))
      = [[[(0 : ℚ), 0, 0]]] from by
    rw [tab3_one]
    norm_num [at3D, atD, eps10]]
  rw [hrefmin, hrefmax, hrmn, hrmx]
  rw [show tab3 1 1 (fun i j c =>
      (at3D [[[(0 : ℚ), 0, 0]]] i j c - 0) * ((1/2 - 1/2) / (0 - 0 + eps6)) + 1/2) =
        [[[(1/2 : ℚ), 1/2, 1/2]]] from by
    rw [tab3_one]
    norm_num [at3D, atD, eps6]]
  rw [show List.range 3 = [0, 1, 2] from rfl]
  simp only [show img1.h = 1 from rfl, show img1.w = 1 from rfl, List.map_cons,
    List.map_nil, matMin_one, matMax_one, matMean_one]
  rw [hpx0, hpx1, hpx2]
  rw [show tab3 1 1 (fun i j c =>
      (clipQ (at3D [[[(1/2 : ℚ), 1/2, 1/2]]] i j c) (List.getD [(1/2 : ℚ), 1/2, 1/2] c 0)
          (List.getD [(1/2 : ℚ), 1/2, 1/2] c 0) - List.getD [(1/2 : ℚ), 1/2, 1/2] c 0) *
        (11/10) + List.getD [(1/2 : ℚ), 1/2, 1/2] c 0) = [[[(1/2 : ℚ), 1/2, 1/2]]] from by
    rw [tab3_one]
    norm_num [at3D, atD, clipQ,
      show List.getD [(1/2 : ℚ), 1/2, 1/2] 0 0 = 1/2 from rfl,
      show List.getD [(1/2 : ℚ), 1/2, 1/2] 1 0 = 1/2 from rfl,
      show List.getD [(1/2 : ℚ), 1/2, 1/2] 2 0 = 1/2 from rfl]]
  rw [tab3_one]
  norm_num [at3D, atD, clipQ,
    show at3D [[[(1/2 : ℚ), 1/2, 1/2]]] 0 0 0 = 1/2 from rfl,
    show at3D [[[(1/2 : ℚ), 1/2, 1/2]]] 0 0 1 = 1/2 from rfl,
    show at3D [[[(1/2 : ℚ), 1/2, 1/2]]] 0 0 2 = 1/2 from rfl]

/-- The sharpening focus mask of the degenerate stack is the upper clip 1. -/
theorem blend_fmask_one : blend_fmask envW 1 1 [fmZ] 1 = [[(1 : ℚ)]] := by
  simp only [blend_fmask, List.foldl_cons, List.foldl_nil]
  rw [show tab 1 1 (envW.resizeLin fmZ.h fmZ.w fmZ.d 1 1) = [[(0 : ℚ)]] from rfl]
  rw [show tab 1 1 (fun _ _ => (0 : ℚ)) = [[0]] from rfl]
  rw [show tab 1 1 (fun i j => atD [[(0 : ℚ)]] i j + (1 - atD [[(0 : ℚ)]] i j)) = [[1]] from by
    rw [tab_one, atD_single]
    norm_num]
  rw [tab_one, atD_single]
  rw [show ((1 : ℕ) : ℚ) = 1 from rfl, div_one]
  rw [clipQ_mid 1 (3/10) 1 (by norm_num) (by norm_num)]

/-- C3 (amended): for a single-image stack blended with a spatially uniform
focus map, every channel of the composite lies within `[0, 1]` (the final
clip); containment in the min/max of the reference channel itself does not hold — the
1.1× contrast stretch and the adaptive sharpening may move values outside the
reference channel range. -/
theorem C3_uniform_blend_bounds (env : Env) (sf : ℕ) (img : Img) (fm : Gray) (v : ℚ)
    (hu : ∀ i j, i < fm.h → j < fm.w → atD fm.d i j = v) :
    ∀ i j c, i < img.h → j < img.w → c < 3 →
      0 ≤ (blend_images env sf [img] [fm]).px i j c ∧
        (blend_images env sf [img] [fm]).px i j c ≤ 1 := by
  intro i j c hi hj hc
  show 0 ≤ at3D (blend_core env sf [img] [fm]) i j c ∧
    at3D (blend_core env sf [img] [fm]) i j c ≤ 1
  simp only [blend_core]
  exact blend_final_mem _ _ _ _ _ _ hi hj hc

/-- Witness for C3 (amended) at the concrete degenerate stack. -/
theorem C3_uniform_blend_bounds_witness :
    0 ≤ (blend_images envW 1 [img1] [fmZ]).px 0 0 0 ∧
      (blend_images envW 1 [img1] [fmZ]).px 0 0 0 ≤ 1 :=
  C3_uniform_blend_bounds envW 1 img1 fmZ 0
    (fun i j hi hj => atD_tab 1 1 (fun _ _ => 0) i j hi hj) 0 0 0
    (by decide) (by decide) (by decide)

/-- The channel-0 value of the degenerate composite: the blend weight of the
uniform focus map is 0, range restoration plants the reference minimum 1/2
everywhere, and sharpening scales it by `1 - 0.2·(2·0.99 + 0.5) = 0.504`,
giving 0.252. -/
theorem blend_one_value :
    (blend_images envW 1 [img1] [fmZ]).px 0 0 0 = 63/250 := by
  show at3D (blend_core envW 1 [img1] [fmZ]) 0 0 0 = 63/250
  simp only [blend_core]
  norm_num [show ([img1] : List Img).headI = img1 from rfl, show img1.h = 1 from rfl,
    show img1.w = 1 from rfl, show fmZ.h = 1 from rfl, show fmZ.w = 1 from rfl]
  rw [blend_accum_one]
  rw [blend_restore_one]
  rw [blend_fmask_one]
  rw [show tab 1 1 (fun i j => at3D [[[(1/2 : ℚ), 1/2, 1/2]]] i j 0) = [[(1/2 : ℚ)]] from by
    rw [tab_one]
    norm_num [at3D, atD]]
  simp only [blend_final]
  rw [at3D_tab3 1 1 _ 0 0 0 one_pos one_pos (by norm_num)]
  rw [at3D_tab3 1 1 _ 0 0 0 one_pos one_pos (by norm_num)]
  rw [if_pos rfl]
  rw [sharpen_one_value]
  rw [clipQ_mid _ _ _ (by norm_num) (by norm_num)]

/-- Counterexample to C3 as stated: for the single-image stack consisting of
the uniform mid-gray 1×1 image and the uniform zero focus map, channel 0 of
the composite takes the value 0.252, strictly below the reference channel
minimum 1/2 — so the composite channel min/max do not lie within the
min/max of the reference channel. -/
theorem C3_counterexample :
    ¬ (matMin img1.h img1.w (fun a b => img1.px a b 0) ≤
          matMin img1.h img1.w (fun a b => (blend_images envW 1 [img1] [fmZ]).px a b 0) ∧
        matMax img1.h img1.w (fun a b => (blend_images envW 1 [img1] [fmZ]).px a b 0) ≤
          matMax img1.h img1.w (fun a b => img1.px a b 0)) := by
  intro hcontain
  have h1 := hcontain.1
  rw [show img1.h = 1 from rfl, show img1.w = 1 from rfl] at h1
  rw [matMin_one, matMin_one] at h1
  rw [blend_one_value, show img1.px 0 0 0 = 1/2 from rfl] at h1
  norm_num at h1

/-- Counterexample to C4 as stated: on a concrete 1×1 channel the code
sharpened output (0.252) differs from the formula of the specification (0.25),
because the code multiplies the sharpen response by the adaptive
`sharp_strength` (here 0.99 < 1) which the claim omits. -/
theorem C4_counterexample :
    atD (sharpen_channel envW 1 1 [[(1 : ℚ)]] [[(1/2 : ℚ)]]) 0 0 ≠
      atD (sharpen_channel_spec 1 1 [[(1/2 : ℚ)]]) 0 0 := by
  have hrhs : atD (sharpen_channel_spec 1 1 [[(1/2 : ℚ)]]) 0 0 = 1/4 := by
    simp only [sharpen_channel_spec]
    rw [atD_tab 1 1 _ 0 0 Nat.zero_lt_one Nat.zero_lt_one]
    rw [cconv_sharpK_half, cconv_highfreqK_half, cconv_detailK_half, contrast_mask_one,
      atD_single]
    norm_num
  rw [sharpen_one_value, hrhs]
  norm_num

end FocusStacking
